import Mathlib

/-!
# utun-macos: `Open` (utun_darwin.go)

A shallow embedding of `Open(name string) (*os.File, error)` of package
`tun_macos`.  The operating system is an oracle (`Sys`): every call that
`Open` issues is answered by a field of that record, and `Open` records
the calls it makes, with their arguments, in a trace.

Go strings are byte sequences; `int` is the 64-bit signed integer of the
darwin targets (amd64, arm64), `uintptr` and pointers are 8 bytes wide.
-/

namespace TunMacos

/-! ## Go strings and the two library functions used for validation -/

/-- A byte, with Go's wrapping arithmetic. -/
abbrev Byte := Fin 256

/-- A Go string: an immutable sequence of bytes. -/
abbrev GoString := List Byte

/-- The bytes of an ASCII literal. -/
def bytes (s : String) : GoString := s.toList.map (fun c => Fin.ofNat c.toNat)

/-- Source: `ifacePrefix = "utun"`. -/
def ifacePrefix : GoString := bytes "utun"

/-- Go `strings.CutPrefix(s, prefix)`:
`if !HasPrefix(s, prefix) { return s, false }; return s[len(prefix):], true`. -/
def CutPrefix (s pre : GoString) : GoString × Bool :=
  if pre.isPrefixOf s then (s.drop pre.length, true) else (s, false)

/-- The two `strconv` error kinds. -/
inductive NumError where
  | ErrSyntax
  | ErrRange
  deriving DecidableEq, Repr

/-- Go `int64(x)` / `int(x)` on a 64-bit target: wrap into `[-2^63, 2^63)`. -/
def wrapInt64 (i : Int) : Int := (i + 2 ^ 63) % 2 ^ 64 - 2 ^ 63

/-- Go `strconv.lower(c)`: `c | ('x' - 'X')`. -/
def lower (c : Byte) : Byte := Fin.ofNat (c.val ||| 32)

/-- The digit value that the `switch` in the loop of Go `strconv.ParseUint`
assigns to a byte when `base != 0`: `c - '0'` for `'0'..'9'`,
`lower(c) - 'a' + 10` for letters, none in the `default` case. -/
def digitVal (c : Byte) : Option Byte :=
  if 48 ≤ c ∧ c ≤ 57 then some (c - 48)
  else if 97 ≤ lower c ∧ lower c ≤ 122 then some (lower c - 97 + 10)
  else none

/-- The loop of Go `strconv.ParseUint(s, 10, 0)` (`base = 10`,
`bitSize = IntSize = 64`, so `cutoff = maxUint64/10 + 1` and
`maxVal = 1<<64 - 1`), started with accumulator `n`; `uint64` arithmetic
wraps. -/
def parseUintLoop : List Byte → Nat → Except NumError Nat
  | [], n => .ok n
  | c :: cs, n =>
    match digitVal c with
    | none => .error .ErrSyntax
    | some d =>
      if d ≥ 10 then .error .ErrSyntax
      else if n ≥ (2 ^ 64 - 1) / 10 + 1 then .error .ErrRange
      else
        let m := (n * 10) % 2 ^ 64
        let n1 := (m + d.val) % 2 ^ 64
        if n1 < m ∨ n1 > 2 ^ 64 - 1 then .error .ErrRange
        else parseUintLoop cs n1

/-- Go `strconv.ParseUint(s, 10, 0)`: the empty string is a syntax error,
otherwise the digit loop. -/
def ParseUint (s : GoString) : Except NumError Nat :=
  if s = [] then .error .ErrSyntax else parseUintLoop s 0

/-- Go `strconv.ParseInt(s, 10, 0)`: pick off a leading sign, parse the rest
unsigned, check the range against `cutoff = 1 << 63`.  The value that Go
returns next to a non-nil error is dropped. -/
def ParseInt (s : GoString) : Except NumError Int :=
  match s with
  | [] => .error .ErrSyntax
  | c :: cs =>
    let neg := c = 45
    let s1 := if c = 43 then cs else if c = 45 then cs else c :: cs
    match ParseUint s1 with
    | .error .ErrSyntax => .error .ErrSyntax
    | r =>
      let un := match r with
        | .ok n => n
        | .error _ => 2 ^ 64 - 1
      if ¬ neg ∧ un ≥ 2 ^ 63 then .error .ErrRange
      else if neg ∧ un > 2 ^ 63 then .error .ErrRange
      else
        let n := wrapInt64 un
        .ok (if neg then wrapInt64 (-n) else n)

/-- The loop of the fast path of Go `strconv.Atoi`:
`ch -= '0'; if ch > 9 { syntax error }; n = n*10 + int(ch)`. -/
def atoiFastLoop : List Byte → Int → Except NumError Int
  | [], n => .ok n
  | ch :: cs, n =>
    let ch1 : Byte := ch - 48
    if ch1 > 9 then .error .ErrSyntax
    else atoiFastLoop cs (wrapInt64 (n * 10 + ch1.val))

/-- Go `strconv.Atoi(s)` with `intSize = 64`: strings of 1..18 bytes take the
fast path (strip one leading sign, which must not be the whole string, run
the digit loop, negate after a `-`); every other string goes through
`ParseInt(s, 10, 0)`.  The value that Go returns next to a non-nil error is
dropped. -/
def Atoi (s : GoString) : Except NumError Int :=
  match s with
  | [] => ParseInt s
  | c :: cs =>
    if s.length < 19 then
      let signed := c = 45 ∨ c = 43
      let s1 := if signed then cs else c :: cs
      if signed ∧ s1.length < 1 then .error .ErrSyntax
      else
        match atoiFastLoop s1 0 with
        | .error e => .error e
        | .ok n => .ok (if c = 45 then wrapInt64 (-n) else n)
    else ParseInt s

/-! ## Constants of the darwin kernel ABI -/

/-- Go `syscall.AF_SYSTEM` on darwin. -/
def AF_SYSTEM : Nat := 32

/-- Go `syscall.SOCK_DGRAM` on darwin. -/
def SOCK_DGRAM : Nat := 2

/-- The constant `SYSPROTO_CONTROL` of `sys/sys_domain.h`. -/
def SYSPROTO_CONTROL : Nat := 2

/-- The constant `AF_SYS_CONTROL` of `sys/sys_domain.h` (quoted in the
source: "#define AF_SYS_CONTROL 2"). -/
def AF_SYS_CONTROL : Nat := 2

/-- The constant `MAX_KCTL_NAME` of `sys/kern_control.h` (quoted in the
source). -/
def MAX_KCTL_NAME : Nat := 96

/-- The request `CTLIOCGINFO` of `sys/kern_control.h`, which is
`_IOWR('N', 3, struct ctl_info)`. -/
def CTLIOCGINFO : Nat := 0xc0644e03

/-- The option `UTUN_OPT_IFNAME` of `net/if_utun.h`. -/
def UTUN_OPT_IFNAME : Nat := 2

/-- Source: `uTunControlName = C.UTUN_CONTROL_NAME`, which `net/if_utun.h`
defines as "com.apple.net.utun_control" (quoted in the source). -/
def uTunControlName : GoString := bytes "com.apple.net.utun_control"

/-- The size of a pointer on the 64-bit darwin targets: the value of
`unsafe.Sizeof(p)` for `p` of pointer type. -/
def ptrSize : Nat := 8

/-! ## Data model -/

/-- Source: `type ctlInfo struct { CtlId uint32; CtlName [MAX_KCTL_NAME]byte }`. -/
structure ctlInfo where
  CtlId : Nat
  CtlName : List Byte
  deriving DecidableEq, Repr

/-- Source: `type sockAddrCtl struct`, six fields:
`ScLen uint8`, `ScFamily uint8`, `ScSysAddr uint16`, `ScId uint32`,
`ScUnit uint32`, `ScReversed uint32`. -/
structure sockAddrCtl where
  ScLen : Nat
  ScFamily : Nat
  ScSysAddr : Nat
  ScId : Nat
  ScUnit : Nat
  ScReversed : Nat
  deriving DecidableEq, Repr

/-- The `w` bytes of an unsigned integer field, least significant first
(amd64 and arm64 are little-endian). -/
def leBytes (w x : Nat) : List Byte :=
  (List.range w).map (fun i => Fin.ofNat (x / 256 ^ i))

/-- The memory image of a `sockAddrCtl` value under Go's layout rules: the
fields in declaration order, each at a multiple of its own size, which
here needs no padding (offsets 0, 1, 2, 4, 8, 12). -/
def sockAddrCtl.toBytes (a : sockAddrCtl) : List Byte :=
  leBytes 1 a.ScLen ++ leBytes 1 a.ScFamily ++ leBytes 2 a.ScSysAddr ++
    leBytes 4 a.ScId ++ leBytes 4 a.ScUnit ++ leBytes 4 a.ScReversed

/-- Go `unsafe.Sizeof(sockAddrCtl{})`: the size of the structure type. -/
def sockAddrCtl.sizeof : Nat := 1 + 1 + 2 + 4 + 4 + 4

/-- Go builtin `copy(dst, src)` on byte slices, as the resulting contents of
`dst`: the first `min(len(dst), len(src))` bytes are overwritten. -/
def copy (dst src : List Byte) : List Byte :=
  src.take dst.length ++ dst.drop src.length

/-- The value of Go type `*os.File` that `os.NewFile(fd, name)` makes. -/
structure File where
  fd : Nat
  name : GoString
  deriving DecidableEq, Repr

/-- The Go `error` values that `Open` returns: the result of a
`fmt.Errorf` call, with its formatted message, or a bare `syscall.Errno`. -/
inductive GoError where
  | errorf (msg : String)
  | errno (e : Nat)
  deriving DecidableEq, Repr

/-- One call into the operating system, with its arguments; a pointer
argument is recorded as the contents it points to. -/
inductive SysCall where
  | socket (domain typ proto : Nat)
  | ioctl (fd req : Nat) (arg : ctlInfo)
  | connect (fd : Nat) (addr : sockAddrCtl) (addrlen : Nat)
  | getsockopt (a1 a2 a3 : Nat) (buf : List Byte) (a5 a6 : Nat)
  | setNonblock (fd : Nat) (nonblocking : Bool)
  deriving DecidableEq, Repr

/-- The operating system and Go's `syscall` package as `Open` sees them:
what each call returns for given arguments. -/
structure Sys where
  /-- Go `syscall.Socket(domain, typ, proto)`: a new descriptor, or an errno. -/
  Socket : Nat → Nat → Nat → Except Nat Nat
  /-- Go `syscall.Syscall(SYS_IOCTL, fd, req, arg)` with `arg` pointing to a
  `ctlInfo`: the errno (0 on success) and the `ctlInfo` as the kernel leaves it. -/
  Ioctl : Nat → Nat → ctlInfo → Nat × ctlInfo
  /-- Go `syscall.RawSyscall(SYS_CONNECT, fd, addr, addrlen)`: the errno. -/
  Connect : Nat → sockAddrCtl → Nat → Nat
  /-- Go `syscall.Syscall6(SYS_GETSOCKOPT, a1, a2, a3, buf, a5, a6)` with `buf`
  pointing to a byte array: the errno and the bytes the kernel stores at the
  start of the array. -/
  Getsockopt : Nat → Nat → Nat → List Byte → Nat → Nat → Nat × List Byte
  /-- Go `syscall.SetNonblock(fd, nonblocking)`: nil, or an errno. -/
  SetNonblock : Nat → Bool → Option Nat
  /-- Go `syscall.Errno.Error()`: the text that `%v` prints for an errno. -/
  ErrnoError : Nat → String

/-- What a call of `Open` leaves behind: the two returned values (`nil` is
`none`), the descriptors open in the process afterwards, and the calls
into the operating system that were made, oldest first. -/
structure Outcome where
  file : Option File
  err : Option GoError
  fds : List Nat
  trace : List SysCall
  deriving DecidableEq, Repr

/-! ## `Open` -/

/-- Source: `func Open(name string) (*os.File, error)`, run in a process
whose open descriptors are `fds`. -/
def Open (sys : Sys) (name : GoString) (fds : List Nat) : Outcome :=
  let cut := CutPrefix name ifacePrefix
  if ¬ cut.2 then
    ⟨none, some (.errorf "interface name must be utun[0-9]"), fds, []⟩
  else
  match Atoi cut.1 with
  | .error _ =>
    ⟨none, some (.errorf "interface name must have unit number"), fds, []⟩
  | .ok unit =>
  let t1 := [SysCall.socket AF_SYSTEM SOCK_DGRAM SYSPROTO_CONTROL]
  match sys.Socket AF_SYSTEM SOCK_DGRAM SYSPROTO_CONTROL with
  | .error e => ⟨none, some (.errno e), fds, t1⟩
  | .ok fd =>
  let fds1 := fd :: fds
  let info0 : ctlInfo :=
    { CtlId := 0, CtlName := copy (List.replicate MAX_KCTL_NAME 0) uTunControlName }
  let t2 := t1 ++ [SysCall.ioctl fd CTLIOCGINFO info0]
  let r2 := sys.Ioctl fd CTLIOCGINFO info0
  if r2.1 ≠ 0 then
    ⟨none, some (.errorf ("error while calling SYS_IOCTL ErrNo: " ++ sys.ErrnoError r2.1)),
      fds1, t2⟩
  else
  let addr : sockAddrCtl :=
    { ScLen := r2.2.CtlId % 2 ^ 8
      ScFamily := AF_SYSTEM
      ScSysAddr := AF_SYS_CONTROL
      ScId := (wrapInt64 (unit + 1) % 2 ^ 32).toNat
      ScUnit := 0
      ScReversed := 0 }
  let t3 := t2 ++ [SysCall.connect fd addr ptrSize]
  let e3 := sys.Connect fd addr ptrSize
  if e3 ≠ 0 then
    ⟨none, some (.errorf ("error while calling SYS_CONNECT ErrNo: " ++ sys.ErrnoError e3)),
      fds1, t3⟩
  else
  let uTunName0 : List Byte := List.replicate 20 0
  let t4 := t3 ++ [SysCall.getsockopt SYSPROTO_CONTROL fd UTUN_OPT_IFNAME uTunName0 20 0]
  let r4 := sys.Getsockopt SYSPROTO_CONTROL fd UTUN_OPT_IFNAME uTunName0 20 0
  if r4.1 ≠ 0 then
    ⟨none, some (.errorf ("error while calling SYS_GETSOCKOPT ErrNo: " ++ sys.ErrnoError r4.1)),
      fds1, t4⟩
  else
  let uTunName := copy uTunName0 r4.2
  let t5 := t4 ++ [SysCall.setNonblock fd true]
  match sys.SetNonblock fd true with
  | some _ =>
    ⟨none, some (.errorf "error while setting non-block mode for file"), fds1, t5⟩
  | none => ⟨some ⟨fd, uTunName⟩, none, fds1, t5⟩

/-! ## Specification-side vocabulary -/

/-- A decimal digit, `'0'..'9'`. -/
def isDigit (c : Byte) : Prop := 48 ≤ c.val ∧ c.val ≤ 57

instance (c : Byte) : Decidable (isDigit c) := by unfold isDigit; infer_instance

/-- The number that a string of decimal digits denotes, continuing from `n`. -/
def decValFrom (n : Nat) (ds : List Byte) : Nat :=
  ds.foldl (fun a c => a * 10 + (c.val - 48)) n

/-- The number that a string of decimal digits denotes. -/
def decVal (ds : List Byte) : Nat := decValFrom 0 ds

/-- A decimal numeral with an optional sign: one optional leading `+` or
`-`, then one or more decimal digits and nothing else. -/
def isSignedDecimal : GoString → Bool
  | [] => false
  | c :: cs =>
    if c = 43 ∨ c = 45 then (!cs.isEmpty) && cs.all (fun x => decide (isDigit x))
    else (c :: cs).all (fun x => decide (isDigit x))

/-- The address records handed to `connect` in a trace, each with the
address length declared for it. -/
def connectCalls (t : List SysCall) : List (sockAddrCtl × Nat) :=
  t.filterMap fun
    | .connect _ a l => some (a, l)
    | _ => none


/-! ## Sample operating systems for concrete runs -/

/-- An operating system in which every call succeeds: the socket is
descriptor 3, the controller lookup stores id 263, and the name read-back
stores "utun10" and a NUL terminator. -/
def sysDemo : Sys where
  Socket := fun _ _ _ => .ok 3
  Ioctl := fun _ _ info => (0, { info with CtlId := 263 })
  Connect := fun _ _ _ => 0
  Getsockopt := fun _ _ _ _ _ _ => (0, bytes "utun10" ++ [0])
  SetNonblock := fun _ _ => none
  ErrnoError := fun e => "errno " ++ toString e

/-- As `sysDemo`, but the controller lookup stores id `c`. -/
def sysWithId (c : Nat) : Sys :=
  { sysDemo with Ioctl := fun _ _ info => (0, { info with CtlId := c }) }

/-- As `sysDemo`, but the controller lookup fails with errno 2. -/
def sysNoController : Sys :=
  { sysDemo with Ioctl := fun _ _ info => (2, info) }

/-- As `sysDemo`, but setting non-blocking mode fails with errno `e`. -/
def sysNonblockFails (e : Nat) : Sys :=
  { sysDemo with SetNonblock := fun _ _ => some e }

/-! ## Facts about bytes and `strconv` -/

set_option maxRecDepth 100000

theorem fast_digit_iff (c : Byte) : ¬ (c - 48 > 9) ↔ isDigit c := by
  revert c; unfold isDigit; decide

theorem fast_digit_val (c : Byte) (h : isDigit c) : (c - 48).val = c.val - 48 := by
  revert c; unfold isDigit; decide

theorem digitVal_of_digit (c : Byte) (h : isDigit c) :
    digitVal c = some (c - 48) ∧ ¬ (c - 48 ≥ 10) := by
  revert c; unfold isDigit digitVal; decide

theorem digitVal_small (c : Byte) :
    (digitVal c).any (fun d => decide (¬ d ≥ 10)) = true → isDigit c := by
  revert c; unfold isDigit digitVal lower; decide

theorem decValFrom_ge (ds : List Byte) (n : Nat) : n ≤ decValFrom n ds := by
  induction ds generalizing n with
  | nil => simp [decValFrom]
  | cons c cs ih =>
    have h := ih (n * 10 + (c.val - 48))
    simp only [decValFrom, List.foldl_cons] at h ⊢
    omega

theorem decValFrom_lt (ds : List Byte) (n : Nat) (hd : ∀ c ∈ ds, isDigit c) :
    decValFrom n ds < (n + 1) * 10 ^ ds.length := by
  induction ds generalizing n with
  | nil => simp [decValFrom]
  | cons c cs ih =>
    have hc : isDigit c := hd c (List.mem_cons_self _ _)
    have h := ih (n * 10 + (c.val - 48)) (fun x hx => hd x (List.mem_cons_of_mem _ hx))
    simp only [decValFrom, List.foldl_cons, List.length_cons] at h ⊢
    unfold isDigit at hc
    calc _ < (n * 10 + (c.val - 48) + 1) * 10 ^ cs.length := h
      _ ≤ ((n + 1) * 10) * 10 ^ cs.length := by
        apply Nat.mul_le_mul_right; omega
      _ = (n + 1) * 10 ^ (cs.length + 1) := by ring

theorem wrapInt64_id (i : Int) (h0 : -(2 ^ 63) ≤ i) (h1 : i < 2 ^ 63) : wrapInt64 i = i := by
  unfold wrapInt64; omega

/-- The fast loop of `Atoi` accepts only digits. -/
theorem atoiFastLoop_ok_digits (cs : List Byte) (n v : Int)
    (h : atoiFastLoop cs n = .ok v) : ∀ c ∈ cs, isDigit c := by
  induction cs generalizing n with
  | nil => simp
  | cons c cs ih =>
    simp only [atoiFastLoop] at h
    split at h
    · cases h
    · rename_i hc
      intro x hx
      rcases List.mem_cons.mp hx with rfl | hx
      · exact (fast_digit_iff _).mp hc
      · exact ih _ h x hx

/-- The fast loop of `Atoi` computes the decimal value as long as it fits. -/
theorem atoiFastLoop_digits (cs : List Byte) (n : Nat) (hd : ∀ c ∈ cs, isDigit c)
    (hv : decValFrom n cs < 2 ^ 63) :
    atoiFastLoop cs (n : Int) = .ok (decValFrom n cs : Nat) := by
  induction cs generalizing n with
  | nil => simp [atoiFastLoop, decValFrom]
  | cons c cs ih =>
    have hc : isDigit c := hd c (List.mem_cons_self _ _)
    have hv2 : decValFrom (n * 10 + (c.val - 48)) cs < 2 ^ 63 := by
      simpa [decValFrom] using hv
    have hle := decValFrom_ge cs (n * 10 + (c.val - 48))
    have h := ih (n * 10 + (c.val - 48)) (fun x hx => hd x (List.mem_cons_of_mem _ hx)) hv2
    simp only [atoiFastLoop]
    rw [if_neg ((fast_digit_iff c).mpr hc), fast_digit_val c hc]
    have hw : wrapInt64 ((n : Int) * 10 + ((c.val - 48 : Nat) : Int))
        = ((n * 10 + (c.val - 48) : Nat) : Int) := by
      rw [wrapInt64_id] <;> push_cast <;> omega
    rw [hw, h]
    simp [decValFrom]

/-- The loop of `ParseUint` accepts only digits. -/
theorem parseUintLoop_ok_digits (cs : List Byte) (n v : Nat)
    (h : parseUintLoop cs n = .ok v) : ∀ c ∈ cs, isDigit c := by
  induction cs generalizing n with
  | nil => simp
  | cons c cs ih =>
    simp only [parseUintLoop] at h
    split at h
    · cases h
    · rename_i d hdv
      split at h
      · cases h
      · rename_i hd
        split at h
        · cases h
        · split at h
          · cases h
          · intro x hx
            rcases List.mem_cons.mp hx with rfl | hx
            · exact digitVal_small _ (by simpa [hdv] using lt_of_not_ge hd)
            · exact ih _ h x hx

/-- On digits, the loop of `ParseUint` returns the decimal value when that
is below `2^64` and a range error otherwise. -/
theorem parseUintLoop_digits (cs : List Byte) (n : Nat) (hd : ∀ c ∈ cs, isDigit c)
    (hn : n < 2 ^ 64) :
    (decValFrom n cs < 2 ^ 64 → parseUintLoop cs n = .ok (decValFrom n cs)) ∧
    (2 ^ 64 ≤ decValFrom n cs → parseUintLoop cs n = .error .ErrRange) := by
  induction cs generalizing n with
  | nil => simp [parseUintLoop, decValFrom]; omega
  | cons c cs ih =>
    have hc : isDigit c := hd c (List.mem_cons_self _ _)
    have hdv := digitVal_of_digit c hc
    have hval := fast_digit_val c hc
    have hle := decValFrom_ge cs (n * 10 + (c.val - 48))
    have hstep : decValFrom n (c :: cs) = decValFrom (n * 10 + (c.val - 48)) cs := by
      simp [decValFrom]
    rw [hstep]
    simp only [parseUintLoop, hdv.1, if_neg hdv.2, hval]
    unfold isDigit at hc
    by_cases hcut : n ≥ (2 ^ 64 - 1) / 10 + 1
    · rw [if_pos hcut]
      constructor
      · intro h; omega
      · intro _; rfl
    · rw [if_neg hcut]
      have hm : n * 10 % 2 ^ 64 = n * 10 := Nat.mod_eq_of_lt (by omega)
      rw [hm]
      by_cases hov : n * 10 + (c.val - 48) < 2 ^ 64
      · have hn1 : (n * 10 + (c.val - 48)) % 2 ^ 64 = n * 10 + (c.val - 48) :=
          Nat.mod_eq_of_lt hov
        rw [hn1, if_neg (by omega)]
        exact ih _ (fun x hx => hd x (List.mem_cons_of_mem _ hx)) hov
      · have hn1 : (n * 10 + (c.val - 48)) % 2 ^ 64 < n * 10 := by omega
        rw [if_pos (Or.inl hn1)]
        constructor
        · intro h; omega
        · intro _; rfl

theorem digit_not_sign (c : Byte) (h : isDigit c) : c ≠ 43 ∧ c ≠ 45 := by
  revert c; unfold isDigit; decide

/-- On a non-empty digit string `ParseInt` returns the decimal value when it
is below `2^63` and a range error otherwise. -/
theorem ParseInt_digits (d : List Byte) (hne : d ≠ []) (hd : ∀ c ∈ d, isDigit c) :
    (decVal d < 2 ^ 63 → ParseInt d = .ok (decVal d : Nat)) ∧
    (2 ^ 63 ≤ decVal d → ParseInt d = .error .ErrRange) := by
  obtain ⟨c, cs, rfl⟩ := List.exists_cons_of_ne_nil hne
  have hc := digit_not_sign c (hd c (List.mem_cons_self _ _))
  have hl := parseUintLoop_digits (c :: cs) 0 hd (by norm_num)
  have hpu : ParseUint (c :: cs) = parseUintLoop (c :: cs) 0 := by simp [ParseUint]
  simp only [ParseInt, if_neg hc.1, if_neg hc.2, hpu]
  unfold decVal
  constructor
  · intro hv
    rw [hl.1 (by omega)]
    simp only [hc.2, false_and, if_false, not_false_eq_true, true_and]
    rw [if_neg (by omega), wrapInt64_id] <;> omega
  · intro hv
    by_cases h64 : decValFrom 0 (c :: cs) < 2 ^ 64
    · rw [hl.1 h64]
      simp only [hc.2, false_and, if_false, not_false_eq_true, true_and]
      rw [if_pos (by omega)]
    · rw [hl.2 (by omega)]
      simp [hc.2]

/-- On a non-empty digit string `Atoi` returns the decimal value when it is
below `2^63` and a range error otherwise. -/
theorem Atoi_digits (d : List Byte) (hne : d ≠ []) (hd : ∀ c ∈ d, isDigit c) :
    (decVal d < 2 ^ 63 → Atoi d = .ok (decVal d : Nat)) ∧
    (2 ^ 63 ≤ decVal d → ∃ e, Atoi d = .error e) := by
  have hP := ParseInt_digits d hne hd
  obtain ⟨c, cs, rfl⟩ := List.exists_cons_of_ne_nil hne
  have hc := digit_not_sign c (hd c (List.mem_cons_self _ _))
  by_cases hlen : (c :: cs).length < 19
  · have hlt := decValFrom_lt (c :: cs) 0 hd
    have hpow : (10 : Nat) ^ (c :: cs).length ≤ 10 ^ 18 :=
      Nat.pow_le_pow_right (by norm_num) (by omega)
    have hv : decVal (c :: cs) < 2 ^ 63 := by
      unfold decVal; omega
    refine ⟨fun _ => ?_, fun h => by omega⟩
    have hf := atoiFastLoop_digits (c :: cs) 0 hd hv
    simp only [Atoi, if_pos hlen, hc.1, hc.2, or_self, false_and, if_false]
    simp only [Nat.cast_zero] at hf
    rw [hf]
    rfl
  · simp only [Atoi, if_neg hlen]
    exact ⟨hP.1, fun h => ⟨_, hP.2 h⟩⟩

theorem all_digits_iff (cs : List Byte) :
    cs.all (fun x => decide (isDigit x)) = true ↔ ∀ c ∈ cs, isDigit c := by
  simp [List.all_eq_true]

theorem ParseUint_ok_digits (s : GoString) (n : Nat) (h : ParseUint s = .ok n) :
    s ≠ [] ∧ ∀ c ∈ s, isDigit c := by
  unfold ParseUint at h
  by_cases hs : s = []
  · rw [if_pos hs] at h; cases h
  · rw [if_neg hs] at h
    exact ⟨hs, parseUintLoop_ok_digits _ _ _ h⟩

theorem isSignedDecimal_signed (c : Byte) (cs : List Byte) (hc : c = 43 ∨ c = 45)
    (hne : cs ≠ []) (hd : ∀ x ∈ cs, isDigit x) : isSignedDecimal (c :: cs) = true := by
  simp only [isSignedDecimal]
  rw [if_pos hc, Bool.and_eq_true, all_digits_iff]
  refine ⟨?_, hd⟩
  cases cs with
  | nil => exact absurd rfl hne
  | cons _ _ => rfl

theorem isSignedDecimal_unsigned (c : Byte) (cs : List Byte) (hc : ¬ (c = 43 ∨ c = 45))
    (hd : ∀ x ∈ c :: cs, isDigit x) : isSignedDecimal (c :: cs) = true := by
  simp only [isSignedDecimal]
  rw [if_neg hc]
  exact (all_digits_iff _).mpr hd

/-- What `ParseInt` accepts is a signed decimal numeral. -/
theorem ParseInt_ok_signedDecimal (s : GoString) (v : Int) (h : ParseInt s = .ok v) :
    isSignedDecimal s = true := by
  cases s with
  | nil => simp [ParseInt] at h
  | cons c cs =>
    simp only [ParseInt] at h
    generalize hs1 : (if c = 43 then cs else if c = 45 then cs else c :: cs) = s1 at h
    cases hpu : ParseUint s1 with
    | error e =>
      rw [hpu] at h
      cases e with
      | ErrSyntax => simp at h
      | ErrRange =>
        exfalso
        by_cases hneg : c = 45 <;> simp [hneg] at h
    | ok n =>
      obtain ⟨hne, hdig⟩ := ParseUint_ok_digits _ _ hpu
      by_cases h43 : c = 43
      · rw [if_pos h43] at hs1
        subst hs1
        exact isSignedDecimal_signed c _ (Or.inl h43) hne hdig
      · by_cases h45 : c = 45
        · rw [if_neg h43, if_pos h45] at hs1
          subst hs1
          exact isSignedDecimal_signed c _ (Or.inr h45) hne hdig
        · rw [if_neg h43, if_neg h45] at hs1
          subst hs1
          exact isSignedDecimal_unsigned c cs (by tauto) hdig

/-- What `Atoi` accepts is a signed decimal numeral. -/
theorem Atoi_ok_signedDecimal (s : GoString) (v : Int) (h : Atoi s = .ok v) :
    isSignedDecimal s = true := by
  cases s with
  | nil => exact ParseInt_ok_signedDecimal _ _ h
  | cons c cs =>
    simp only [Atoi] at h
    by_cases hlen : (c :: cs).length < 19
    · rw [if_pos hlen] at h
      by_cases hsg : c = 45 ∨ c = 43
      · simp only [hsg, if_true, true_and] at h
        by_cases hl : cs.length < 1
        · rw [if_pos hl] at h; cases h
        · rw [if_neg hl] at h
          cases hf : atoiFastLoop cs 0 with
          | error e => rw [hf] at h; cases h
          | ok n =>
            have hne : cs ≠ [] := by
              rintro rfl; simp at hl
            exact isSignedDecimal_signed c cs hsg.symm hne (atoiFastLoop_ok_digits _ _ _ hf)
      · simp only [hsg, if_false, false_and] at h
        cases hf : atoiFastLoop (c :: cs) 0 with
        | error e => rw [hf] at h; cases h
        | ok n =>
          exact isSignedDecimal_unsigned c cs (fun h => hsg h.symm)
            (atoiFastLoop_ok_digits _ _ _ hf)
    · rw [if_neg hlen] at h
      exact ParseInt_ok_signedDecimal _ _ h

theorem CutPrefix_append (pre s : GoString) : CutPrefix (pre ++ s) pre = (s, true) := by
  have h : pre.isPrefixOf (pre ++ s) = true :=
    List.isPrefixOf_iff_prefix.mpr (List.prefix_append _ _)
  simp [CutPrefix, h]

theorem CutPrefix_not (pre s : GoString) (h : ¬ pre <+: s) : (CutPrefix s pre).2 = false := by
  have h2 : ¬ pre.isPrefixOf s = true := fun hp => h (List.isPrefixOf_iff_prefix.mp hp)
  simp [CutPrefix, h2]

/-! ## `Open`: validation -/

theorem Open_of_not_found (sys : Sys) (name : GoString) (fds : List Nat)
    (h : (CutPrefix name ifacePrefix).2 = false) :
    Open sys name fds
      = ⟨none, some (.errorf "interface name must be utun[0-9]"), fds, []⟩ := by
  simp [Open, h]

theorem Open_of_bad_unit (sys : Sys) (s : GoString) (fds : List Nat) (e : NumError)
    (h : Atoi s = .error e) :
    Open sys (ifacePrefix ++ s) fds
      = ⟨none, some (.errorf "interface name must have unit number"), fds, []⟩ := by
  simp [Open, CutPrefix_append, h]

/-- C1: a name that does not start with "utun" makes `Open` return no handle
and the error "interface name must be utun[0-9]", with no call into the
operating system and the open descriptors unchanged. -/
theorem Open_rejects_name_without_utun (sys : Sys) (name : GoString) (fds : List Nat)
    (h : ¬ ifacePrefix <+: name) :
    Open sys name fds
      = ⟨none, some (.errorf "interface name must be utun[0-9]"), fds, []⟩ :=
  Open_of_not_found sys name fds (CutPrefix_not _ _ h)

theorem Open_rejects_name_without_utun_witness :
    ¬ ifacePrefix <+: bytes "tun" ∧
    Open sysDemo (bytes "tun") []
      = ⟨none, some (.errorf "interface name must be utun[0-9]"), [], []⟩ :=
  ⟨by decide, Open_rejects_name_without_utun sysDemo (bytes "tun") [] (by decide)⟩

/-- C2: for a name "utun" ++ s whose suffix s is empty or is not a number (not
an optionally signed decimal numeral), `Open` returns no handle and the
error "interface name must have unit number", with no call into the
operating system and the open descriptors unchanged. -/
theorem Open_rejects_non_numeric_unit (sys : Sys) (s : GoString) (fds : List Nat)
    (h : s = [] ∨ isSignedDecimal s = false) :
    Open sys (ifacePrefix ++ s) fds
      = ⟨none, some (.errorf "interface name must have unit number"), fds, []⟩ := by
  have hs : isSignedDecimal s = false := by
    rcases h with rfl | h
    · rfl
    · exact h
  cases ha : Atoi s with
  | error e => exact Open_of_bad_unit sys s fds e ha
  | ok v =>
    have := Atoi_ok_signedDecimal s v ha
    rw [hs] at this
    cases this

theorem Open_rejects_non_numeric_unit_witness :
    (Open sysDemo (ifacePrefix ++ bytes "") []
      = ⟨none, some (.errorf "interface name must have unit number"), [], []⟩) ∧
    (Open sysDemo (ifacePrefix ++ bytes "x") []
      = ⟨none, some (.errorf "interface name must have unit number"), [], []⟩) ∧
    (Open sysDemo (ifacePrefix ++ bytes "1a") []
      = ⟨none, some (.errorf "interface name must have unit number"), [], []⟩) :=
  ⟨Open_rejects_non_numeric_unit sysDemo (bytes "") [] (Or.inl rfl),
   Open_rejects_non_numeric_unit sysDemo (bytes "x") [] (Or.inr (by decide)),
   Open_rejects_non_numeric_unit sysDemo (bytes "1a") [] (Or.inr (by decide))⟩

/-! ## `Open`: the calls into the operating system -/

theorem connect_event_length_field (sys : Sys) (name : GoString)
    (fds : List Nat) (fd : Nat) (addr : sockAddrCtl) (len : Nat)
    (h : SysCall.connect fd addr len ∈ (Open sys name fds).trace) :
    addr.ScLen
      = (sys.Ioctl fd CTLIOCGINFO
          ⟨0, copy (List.replicate MAX_KCTL_NAME 0) uTunControlName⟩).2.CtlId % 256 ∧
    addr.toBytes.head? = some (Fin.ofNat addr.ScLen) := by
  unfold Open at h
  simp only [] at h
  repeat' split at h
  all_goals simp at h
  all_goals
    obtain ⟨rfl, rfl, rfl⟩ := h
    simp [sockAddrCtl.toBytes, leBytes, List.range_succ]

/-- Once the name is accepted, the socket exists and the lookup has stored
`info`, `Open` builds one address record, with `ScLen = info.CtlId mod 256`,
and hands it to `connect` as the third call of the run. -/
theorem Open_connects_with_low_byte (sys : Sys) (name : GoString) (fds : List Nat)
    (unit : Int) (fd : Nat) (info : ctlInfo)
    (hc : (CutPrefix name ifacePrefix).2 = true)
    (hu : Atoi (CutPrefix name ifacePrefix).1 = .ok unit)
    (hs : sys.Socket AF_SYSTEM SOCK_DGRAM SYSPROTO_CONTROL = .ok fd)
    (hi : sys.Ioctl fd CTLIOCGINFO
            ⟨0, copy (List.replicate MAX_KCTL_NAME 0) uTunControlName⟩ = (0, info)) :
    ∃ addr : sockAddrCtl,
      (Open sys name fds).trace.take 3
        = [SysCall.socket AF_SYSTEM SOCK_DGRAM SYSPROTO_CONTROL,
           SysCall.ioctl fd CTLIOCGINFO
             ⟨0, copy (List.replicate MAX_KCTL_NAME 0) uTunControlName⟩,
           SysCall.connect fd addr ptrSize] ∧
      connectCalls (Open sys name fds).trace = [(addr, ptrSize)] ∧
      addr.ScLen = info.CtlId % 256 ∧
      addr.toBytes.head? = some (Fin.ofNat (info.CtlId % 256)) := by
  refine ⟨{ ScLen := info.CtlId % 2 ^ 8, ScFamily := AF_SYSTEM, ScSysAddr := AF_SYS_CONTROL,
            ScId := (wrapInt64 (unit + 1) % 2 ^ 32).toNat, ScUnit := 0, ScReversed := 0 },
          ?_, ?_, ?_, ?_⟩
  · simp only [Open, hc, hu, hs, hi, not_true_eq_false, if_false, ne_eq]
    repeat' split
    all_goals simp
  · simp only [Open, hc, hu, hs, hi, not_true_eq_false, if_false, ne_eq]
    repeat' split
    all_goals simp [connectCalls]
  · norm_num
  · simp [sockAddrCtl.toBytes, leBytes, List.range_succ]

/-- C7: for every controller id c that the lookup resolves (name accepted,
socket created, ioctl returning errno 0 with id c stored), `Open` hands
exactly one address record to `connect`, as its third call, and the length
field of that record, which is its first byte, is c truncated to 8 bits
(`c mod 256`); and in every run of `Open` whatsoever, any address record
handed to `connect` has that length field. -/
theorem connect_length_field_is_low_byte_of_id (sys : Sys) (name : GoString)
    (fds : List Nat) :
    (∀ (unit : Int) (fd : Nat) (info : ctlInfo),
      (CutPrefix name ifacePrefix).2 = true →
      Atoi (CutPrefix name ifacePrefix).1 = .ok unit →
      sys.Socket AF_SYSTEM SOCK_DGRAM SYSPROTO_CONTROL = .ok fd →
      sys.Ioctl fd CTLIOCGINFO
        ⟨0, copy (List.replicate MAX_KCTL_NAME 0) uTunControlName⟩ = (0, info) →
      ∃ addr : sockAddrCtl,
        (Open sys name fds).trace.take 3
          = [SysCall.socket AF_SYSTEM SOCK_DGRAM SYSPROTO_CONTROL,
             SysCall.ioctl fd CTLIOCGINFO
               ⟨0, copy (List.replicate MAX_KCTL_NAME 0) uTunControlName⟩,
             SysCall.connect fd addr ptrSize] ∧
        connectCalls (Open sys name fds).trace = [(addr, ptrSize)] ∧
        addr.ScLen = info.CtlId % 256 ∧
        addr.toBytes.head? = some (Fin.ofNat (info.CtlId % 256))) ∧
    (∀ (fd : Nat) (addr : sockAddrCtl) (len : Nat),
      SysCall.connect fd addr len ∈ (Open sys name fds).trace →
      addr.ScLen
        = (sys.Ioctl fd CTLIOCGINFO
            ⟨0, copy (List.replicate MAX_KCTL_NAME 0) uTunControlName⟩).2.CtlId % 256 ∧
      addr.toBytes.head? = some (Fin.ofNat addr.ScLen)) :=
  ⟨fun unit fd info hc hu hs hi =>
      Open_connects_with_low_byte sys name fds unit fd info hc hu hs hi,
   fun fd addr len h => connect_event_length_field sys name fds fd addr len h⟩

theorem connect_length_field_is_low_byte_of_id_witness :
    ((CutPrefix (bytes "utun10") ifacePrefix).2 = true ∧
      Atoi (CutPrefix (bytes "utun10") ifacePrefix).1 = .ok 10 ∧
      (sysWithId 4294967295).Socket AF_SYSTEM SOCK_DGRAM SYSPROTO_CONTROL = .ok 3 ∧
      (sysWithId 4294967295).Ioctl 3 CTLIOCGINFO
          ⟨0, copy (List.replicate MAX_KCTL_NAME 0) uTunControlName⟩
        = (0, ⟨4294967295, copy (List.replicate MAX_KCTL_NAME 0) uTunControlName⟩) ∧
      ∃ addr : sockAddrCtl,
        (Open (sysWithId 4294967295) (bytes "utun10") []).trace.take 3
          = [SysCall.socket AF_SYSTEM SOCK_DGRAM SYSPROTO_CONTROL,
             SysCall.ioctl 3 CTLIOCGINFO
               ⟨0, copy (List.replicate MAX_KCTL_NAME 0) uTunControlName⟩,
             SysCall.connect 3 addr ptrSize] ∧
        connectCalls (Open (sysWithId 4294967295) (bytes "utun10") []).trace
          = [(addr, ptrSize)] ∧
        addr.ScLen = 4294967295 % 256 ∧
        addr.toBytes.head? = some (Fin.ofNat (4294967295 % 256))) ∧
    (SysCall.connect 3 ⟨7, 32, 2, 11, 0, 0⟩ 8 ∈ (Open sysDemo (bytes "utun10") []).trace ∧
      (⟨7, 32, 2, 11, 0, 0⟩ : sockAddrCtl).ScLen
        = (sysDemo.Ioctl 3 CTLIOCGINFO
            ⟨0, copy (List.replicate MAX_KCTL_NAME 0) uTunControlName⟩).2.CtlId % 256 ∧
      (⟨7, 32, 2, 11, 0, 0⟩ : sockAddrCtl).toBytes.head?
        = some (Fin.ofNat (⟨7, 32, 2, 11, 0, 0⟩ : sockAddrCtl).ScLen)) :=
  ⟨⟨by decide, by rfl, rfl, rfl,
    (connect_length_field_is_low_byte_of_id (sysWithId 4294967295) (bytes "utun10") []).1
      10 3 ⟨4294967295, copy (List.replicate MAX_KCTL_NAME 0) uTunControlName⟩
      (by decide) (by rfl) rfl rfl⟩,
   ⟨by decide,
    (connect_length_field_is_low_byte_of_id sysDemo (bytes "utun10") []).2
      3 ⟨7, 32, 2, 11, 0, 0⟩ 8 (by decide)⟩⟩

theorem errorf_append_ne (x : String) (a b : String) (c d : Char) (as bs : List Char)
    (ha : a.data = c :: as) (hb : b.data = d :: bs) (hcd : c ≠ d) :
    GoError.errorf (a ++ x) ≠ GoError.errorf b := by
  intro h
  injection h with h
  have h2 := congrArg String.data h
  rw [String.data_append, ha, hb] at h2
  simp at h2
  exact hcd h2.1

/-- Once the unit has been parsed, `Open` starts with the socket call and
returns neither of the two validation errors. -/
theorem Open_after_validation (sys : Sys) (s : GoString) (fds : List Nat) (unit : Int)
    (h : Atoi s = .ok unit) :
    (Open sys (ifacePrefix ++ s) fds).trace.head?
      = some (SysCall.socket AF_SYSTEM SOCK_DGRAM SYSPROTO_CONTROL) ∧
    (Open sys (ifacePrefix ++ s) fds).err
      ≠ some (.errorf "interface name must be utun[0-9]") ∧
    (Open sys (ifacePrefix ++ s) fds).err
      ≠ some (.errorf "interface name must have unit number") := by
  have e1 : ∀ x, GoError.errorf ("error while calling SYS_IOCTL ErrNo: " ++ x)
      ≠ GoError.errorf "interface name must be utun[0-9]" :=
    fun x => errorf_append_ne x _ _ _ _ _ _ rfl rfl (by decide)
  have e2 : ∀ x, GoError.errorf ("error while calling SYS_IOCTL ErrNo: " ++ x)
      ≠ GoError.errorf "interface name must have unit number" :=
    fun x => errorf_append_ne x _ _ _ _ _ _ rfl rfl (by decide)
  have e3 : ∀ x, GoError.errorf ("error while calling SYS_CONNECT ErrNo: " ++ x)
      ≠ GoError.errorf "interface name must be utun[0-9]" :=
    fun x => errorf_append_ne x _ _ _ _ _ _ rfl rfl (by decide)
  have e4 : ∀ x, GoError.errorf ("error while calling SYS_CONNECT ErrNo: " ++ x)
      ≠ GoError.errorf "interface name must have unit number" :=
    fun x => errorf_append_ne x _ _ _ _ _ _ rfl rfl (by decide)
  have e5 : ∀ x, GoError.errorf ("error while calling SYS_GETSOCKOPT ErrNo: " ++ x)
      ≠ GoError.errorf "interface name must be utun[0-9]" :=
    fun x => errorf_append_ne x _ _ _ _ _ _ rfl rfl (by decide)
  have e6 : ∀ x, GoError.errorf ("error while calling SYS_GETSOCKOPT ErrNo: " ++ x)
      ≠ GoError.errorf "interface name must have unit number" :=
    fun x => errorf_append_ne x _ _ _ _ _ _ rfl rfl (by decide)
  have e7 : GoError.errorf "error while setting non-block mode for file"
      ≠ GoError.errorf "interface name must be utun[0-9]" := by decide
  have e8 : GoError.errorf "error while setting non-block mode for file"
      ≠ GoError.errorf "interface name must have unit number" := by decide
  simp only [Open, CutPrefix_append, h, not_true_eq_false, if_false]
  repeat' split
  all_goals simp [e1, e2, e3, e4, e5, e6, e7, e8]


/-- C3 (the code departs from it): on the name "utun-1" `Atoi` yields the
unit -1, so `Open` does not return the error "interface name must have
unit number": whatever the operating system answers, its first act is the
socket call. -/
theorem Open_accepts_negative_unit (sys : Sys) (fds : List Nat) :
    Atoi (bytes "-1") = .ok (-1) ∧
    (Open sys (bytes "utun-1") fds).trace.head?
      = some (SysCall.socket AF_SYSTEM SOCK_DGRAM SYSPROTO_CONTROL) ∧
    (Open sys (bytes "utun-1") fds).err
      ≠ some (.errorf "interface name must have unit number") := by
  have ha : Atoi (bytes "-1") = .ok (-1) := by rfl
  have hn : bytes "utun-1" = ifacePrefix ++ bytes "-1" := by decide
  have h := Open_after_validation sys (bytes "-1") fds (-1) ha
  rw [hn]
  exact ⟨ha, h.1, h.2.2⟩

/-- C9, as stated, fails: the digit string "9223372036854775808" (2^63) does
not pass validation; `Open` returns the error "interface name must have
unit number" and makes no call into the operating system. -/
theorem Open_rejects_unit_two_pow_63 :
    (∀ c ∈ bytes "9223372036854775808", isDigit c) ∧
    Open sysDemo (ifacePrefix ++ bytes "9223372036854775808") []
      = ⟨none, some (.errorf "interface name must have unit number"), [], []⟩ := by
  constructor
  · decide
  · decide

/-- C9, amended: for a non-empty string d of decimal digits, `Open` on
"utun" ++ d passes validation (its first act is the socket call and it
returns neither validation error) when the number d denotes is below 2^63,
with any number of leading zeros; when the number is 2^63 or more, `Open`
returns the error "interface name must have unit number" and makes no call
into the operating system. -/
theorem Open_accepts_digits_below_two_pow_63 (sys : Sys) (d : GoString) (fds : List Nat)
    (hne : d ≠ []) (hd : ∀ c ∈ d, isDigit c) :
    (decVal d < 2 ^ 63 →
      (Open sys (ifacePrefix ++ d) fds).trace.head?
        = some (SysCall.socket AF_SYSTEM SOCK_DGRAM SYSPROTO_CONTROL) ∧
      (Open sys (ifacePrefix ++ d) fds).err
        ≠ some (.errorf "interface name must be utun[0-9]") ∧
      (Open sys (ifacePrefix ++ d) fds).err
        ≠ some (.errorf "interface name must have unit number")) ∧
    (2 ^ 63 ≤ decVal d →
      Open sys (ifacePrefix ++ d) fds
        = ⟨none, some (.errorf "interface name must have unit number"), fds, []⟩) := by
  have ha := Atoi_digits d hne hd
  constructor
  · intro hv
    exact Open_after_validation sys d fds _ (ha.1 hv)
  · intro hv
    obtain ⟨e, he⟩ := ha.2 hv
    exact Open_of_bad_unit sys d fds e he

theorem Open_accepts_digits_below_two_pow_63_witness :
    bytes "0010" ≠ [] ∧ (∀ c ∈ bytes "0010", isDigit c) ∧ decVal (bytes "0010") < 2 ^ 63 ∧
    (Open sysDemo (ifacePrefix ++ bytes "0010") []).trace.head?
      = some (SysCall.socket AF_SYSTEM SOCK_DGRAM SYSPROTO_CONTROL) ∧
    (Open sysDemo (ifacePrefix ++ bytes "0010") []).err
      ≠ some (.errorf "interface name must be utun[0-9]") ∧
    (Open sysDemo (ifacePrefix ++ bytes "0010") []).err
      ≠ some (.errorf "interface name must have unit number") :=
  ⟨by decide, by decide, by decide,
   (Open_accepts_digits_below_two_pow_63 sysDemo (bytes "0010") [] (by decide)
      (by decide)).1 (by decide)⟩

/-- C4 (the code departs from it): on the name "utun0", with the controller
lookup storing id 263, the one address record handed to `connect` carries
the unit value 0 + 1 in its controller-id field `ScId` and 0 in its unit
field `ScUnit`; the id 263 appears only, truncated, in `ScLen`. -/
theorem connect_address_puts_unit_in_id_field :
    (sysDemo.Ioctl 3 CTLIOCGINFO
        ⟨0, copy (List.replicate MAX_KCTL_NAME 0) uTunControlName⟩).2.CtlId = 263 ∧
    connectCalls (Open sysDemo (bytes "utun0") []).trace
      = [({ ScLen := 7, ScFamily := AF_SYSTEM, ScSysAddr := AF_SYS_CONTROL,
            ScId := 1, ScUnit := 0, ScReversed := 0 }, 8)] := by
  constructor
  · decide
  · decide

/-- C8 (the code departs from it): on the name "utun0" the address record
handed to `connect` is 16 bytes long, with one reserved word at offset 12,
and the address length declared for it is 8, the size of a pointer, not the
32 bytes of the kernel structure. -/
theorem connect_address_is_16_bytes_declared_8 :
    connectCalls (Open sysDemo (bytes "utun0") []).trace
      = [(⟨7, 32, 2, 1, 0, 0⟩, ptrSize)] ∧
    (⟨7, 32, 2, 1, 0, 0⟩ : sockAddrCtl).toBytes
      = [7, 32, 2, 0, 1, 0, 0, 0, 0, 0, 0, 0, 0, 0, 0, 0] ∧
    (⟨7, 32, 2, 1, 0, 0⟩ : sockAddrCtl).toBytes.length = 16 ∧
    sockAddrCtl.sizeof = 16 ∧ ptrSize = 8 := by
  refine ⟨?_, ?_, ?_, ?_, ?_⟩ <;> decide

/-- The failure returns of `Open` after validation, step by step: the first
failing step ends the run (the trace stops there), no handle is returned,
and the error is the bare errno for the socket step, a message naming the
call and the errno text for the ioctl, connect and getsockopt steps, and a
fixed message for the set-non-blocking step. -/
theorem Open_first_failure (sys : Sys) (s : GoString) (fds : List Nat) (unit : Int)
    (h : Atoi s = .ok unit) :
    (∀ e, sys.Socket AF_SYSTEM SOCK_DGRAM SYSPROTO_CONTROL = .error e →
      Open sys (ifacePrefix ++ s) fds
        = ⟨none, some (.errno e), fds,
            [SysCall.socket AF_SYSTEM SOCK_DGRAM SYSPROTO_CONTROL]⟩) ∧
    (∀ fd, sys.Socket AF_SYSTEM SOCK_DGRAM SYSPROTO_CONTROL = .ok fd →
      (Open sys (ifacePrefix ++ s) fds).err = none ∨
      (Open sys (ifacePrefix ++ s) fds).file = none ∧
      (((Open sys (ifacePrefix ++ s) fds).trace.length = 2 ∧
          ∃ e, e ≠ 0 ∧ (Open sys (ifacePrefix ++ s) fds).err
            = some (.errorf ("error while calling SYS_IOCTL ErrNo: " ++ sys.ErrnoError e))) ∨
        ((Open sys (ifacePrefix ++ s) fds).trace.length = 3 ∧
          ∃ e, e ≠ 0 ∧ (Open sys (ifacePrefix ++ s) fds).err
            = some (.errorf ("error while calling SYS_CONNECT ErrNo: " ++ sys.ErrnoError e))) ∨
        ((Open sys (ifacePrefix ++ s) fds).trace.length = 4 ∧
          ∃ e, e ≠ 0 ∧ (Open sys (ifacePrefix ++ s) fds).err
            = some (.errorf
                ("error while calling SYS_GETSOCKOPT ErrNo: " ++ sys.ErrnoError e))) ∨
        ((Open sys (ifacePrefix ++ s) fds).trace.length = 5 ∧
          (Open sys (ifacePrefix ++ s) fds).err
            = some (.errorf "error while setting non-block mode for file")))) := by
  constructor
  · intro e he
    simp [Open, CutPrefix_append, h, he]
  · intro fd hfd
    simp only [Open, CutPrefix_append, h, hfd, not_true_eq_false, if_false]
    repeat' split
    · rename_i h1
      exact Or.inr ⟨rfl, Or.inl ⟨rfl, _, h1, rfl⟩⟩
    · rename_i h2
      exact Or.inr ⟨rfl, Or.inr (Or.inl ⟨rfl, _, h2, rfl⟩)⟩
    · rename_i h3
      exact Or.inr ⟨rfl, Or.inr (Or.inr (Or.inl ⟨rfl, _, h3, rfl⟩))⟩
    · exact Or.inr ⟨rfl, Or.inr (Or.inr (Or.inr ⟨rfl, rfl⟩))⟩
    · exact Or.inl rfl

/-- C10 (the code departs from it): when setting non-blocking mode is the
first step to fail, the returned error is the fixed message "error while
setting non-block mode for file" whatever the errno: errno 9 and errno 35
give the same error, so the error does not carry the code. -/
theorem setNonblock_error_drops_errno :
    (Open (sysNonblockFails 9) (bytes "utun0") []).err
      = some (.errorf "error while setting non-block mode for file") ∧
    (Open (sysNonblockFails 35) (bytes "utun0") []).err
      = (Open (sysNonblockFails 9) (bytes "utun0") []).err ∧
    (Open sysNoController (bytes "utun0") []).err
      = some (.errorf "error while calling SYS_IOCTL ErrNo: errno 2") := by
  refine ⟨?_, ?_, ?_⟩ <;> decide

/-! ## `Open`: the descriptor and the reported name -/

/-- The name of a returned handle is the 20-byte buffer after the name
read-back on the handle's descriptor. -/
theorem Open_file_name (sys : Sys) (name : GoString) (fds : List Nat) (f : File)
    (h : (Open sys name fds).file = some f) :
    f.name = copy (List.replicate 20 0)
      (sys.Getsockopt SYSPROTO_CONTROL f.fd UTUN_OPT_IFNAME (List.replicate 20 0) 20 0).2 := by
  unfold Open at h
  simp only [] at h
  repeat' split at h
  all_goals simp at h
  subst h
  rfl

theorem takeWhile_append_stop {α : Type} (p : α → Bool) (l1 l2 : List α) (a : α)
    (h1 : ∀ x ∈ l1, p x = true) (h2 : p a = false) :
    (l1 ++ a :: l2).takeWhile p = l1 := by
  induction l1 with
  | nil => simp [List.takeWhile, h2]
  | cons x xs ih =>
    have hx := h1 x (List.mem_cons_self _ _)
    simp only [List.cons_append, List.takeWhile_cons, hx, if_true]
    rw [ih (fun y hy => h1 y (List.mem_cons_of_mem _ hy))]

/-- C6, as stated, fails: when the kernel stores "utun10" and a NUL
terminator, the name reported with the handle is "utun10" followed by 14
NUL bytes: 20 bytes, not at most 19, and not the bare name. -/
theorem Open_reports_padding :
    (sysDemo.Getsockopt SYSPROTO_CONTROL 3 UTUN_OPT_IFNAME (List.replicate 20 0) 20 0).2
      = bytes "utun10" ++ [0] ∧
    (Open sysDemo (bytes "utun10") []).file
      = some ⟨3, bytes "utun10" ++ List.replicate 14 0⟩ ∧
    ¬ (bytes "utun10" ++ List.replicate 14 (0 : Byte)).length ≤ 19 ∧
    bytes "utun10" ++ List.replicate 14 (0 : Byte) ≠ bytes "utun10" := by
  refine ⟨?_, ?_, ?_, ?_⟩ <;> decide

/-- C6, amended: on success the name reported with the returned handle is
the whole 20-byte buffer.  Whenever the kernel stores "utun", decimal digits
and a NUL terminator (at most 20 bytes in all), the reported name is that
name followed by NUL bytes up to 20 bytes; its part before the first NUL is
"utun" followed by the digits and has at most 19 bytes. -/
theorem Open_reports_whole_buffer (sys : Sys) (name : GoString) (fds : List Nat)
    (f : File) (ds : List Byte)
    (hok : (Open sys name fds).file = some f)
    (hk : (sys.Getsockopt SYSPROTO_CONTROL f.fd UTUN_OPT_IFNAME
            (List.replicate 20 0) 20 0).2 = ifacePrefix ++ ds ++ [0])
    (_hne : ds ≠ []) (hd : ∀ c ∈ ds, isDigit c)
    (hl : (ifacePrefix ++ ds ++ [0]).length ≤ 20) :
    f.name = ifacePrefix ++ ds ++ List.replicate (16 - ds.length) 0 ∧
    f.name.length = 20 ∧
    f.name.takeWhile (fun b => decide (b ≠ 0)) = ifacePrefix ++ ds ∧
    (ifacePrefix ++ ds).length ≤ 19 := by
  have hp : ifacePrefix.length = 4 := by decide
  have hlen : ds.length ≤ 15 := by
    simp only [List.length_append, hp, List.length_singleton] at hl; omega
  have hname : f.name = ifacePrefix ++ ds ++ List.replicate (16 - ds.length) 0 := by
    rw [Open_file_name sys name fds f hok, hk]
    unfold copy
    rw [List.take_of_length_le (by simpa using hl)]
    simp only [List.drop_replicate, List.length_append, hp, List.length_singleton,
      List.length_replicate, List.append_assoc]
    have : 16 - ds.length = (20 - (4 + (ds.length + 1))) + 1 := by omega
    rw [this, List.replicate_succ]
    rfl
  refine ⟨hname, ?_, ?_, ?_⟩
  · rw [hname]
    simp only [List.length_append, hp, List.length_replicate]
    omega
  · rw [hname]
    have : 16 - ds.length = (15 - ds.length) + 1 := by omega
    rw [this, List.replicate_succ]
    apply takeWhile_append_stop
    · intro x hx
      rcases List.mem_append.mp hx with hx | hx
      · have hall : ∀ y ∈ ifacePrefix, decide (y ≠ 0) = true := by decide
        exact hall x hx
      · have := hd x hx
        unfold isDigit at this
        simp only [ne_eq, decide_eq_true_eq]
        intro h0
        rw [h0] at this
        simp at this
    · simp
  · simp only [List.length_append, hp]
    omega

theorem Open_reports_whole_buffer_witness :
    (Open sysDemo (bytes "utun10") []).file
      = some ⟨3, bytes "utun10" ++ List.replicate 14 0⟩ ∧
    (sysDemo.Getsockopt SYSPROTO_CONTROL 3 UTUN_OPT_IFNAME (List.replicate 20 0) 20 0).2
      = ifacePrefix ++ bytes "10" ++ [0] ∧
    ((⟨3, bytes "utun10" ++ List.replicate 14 0⟩ : File).name
        = ifacePrefix ++ bytes "10" ++ List.replicate (16 - (bytes "10").length) 0 ∧
      (⟨3, bytes "utun10" ++ List.replicate 14 0⟩ : File).name.length = 20 ∧
      (⟨3, bytes "utun10" ++ List.replicate 14 0⟩ : File).name.takeWhile
          (fun b => decide (b ≠ 0)) = ifacePrefix ++ bytes "10" ∧
      (ifacePrefix ++ bytes "10").length ≤ 19) :=
  ⟨by decide, by decide,
   Open_reports_whole_buffer sysDemo (bytes "utun10") []
     ⟨3, bytes "utun10" ++ List.replicate 14 0⟩ (bytes "10")
     (by decide) (by decide) (by decide) (by decide) (by decide)⟩

end TunMacos
